import Mathlib

/-!
Shallow embedding of the canikona results-processing pipeline
(src/parse_live_data.py, src/slot_policy.py, src/adjustments.py,
src/cache_utils.py) together with theorems settling the frozen claims
about it.

Conventions of the embedding:
- Python dicts with a fixed set of consumed keys become structures whose
  fields are `Option`-typed when the source uses `.get` with a default.
- Machine integers are `Int`/`Nat`; Python floats that only ever hold
  products and quotients of integers are modelled as `Rat` (exact
  arithmetic; the claims under study never depend on binary rounding).
- Fallible code returns `Option`/`Except`.  `PyErr` enumerates the
  exception kinds relevant to the claims.
- The upstream HTTP feed and the file system are passed in explicitly
  (an oracle function for fetches, a string-keyed store for files).
-/

/-- Exception kinds that matter for the claims. -/
inductive PyErr where
  | attributeError
  | keyError
  | fileNotFound
  | runtimeError
  deriving DecidableEq

/-- The whitespace characters removed by the `re.sub "\\s+"` call in
`process_live_results` (ASCII range of the Python class). -/
def pyIsSpace (c : Char) : Bool :=
  c = ' ' || c = '\t' || c = '\n' || c = '\r' || c = '\x0b' || c = '\x0c'

/-- Remove every whitespace character, as `re.sub(r"\s+", "", x)` does. -/
def stripPyWs (s : String) : String :=
  ⟨s.toList.filter (fun c => !pyIsSpace c)⟩

/-- Numeric value of a list of ASCII digit characters (`int` on the
matched group, also how Python reads `"007"` as `7`). -/
def digitsToNat (l : List Char) : Nat :=
  l.foldl (fun a c => a * 10 + (c.toNat - '0'.toNat)) 0

/-- `s.replace(' ', '_')` on the race name. -/
def pyReplaceSpaceUnderscore (s : String) : String :=
  ⟨s.toList.map (fun c => if c = ' ' then '_' else c)⟩

/-- `s.upper()` restricted to the ASCII letters that occur in race names
and division codes. -/
def pyUpper (s : String) : String :=
  ⟨s.toList.map Char.toUpper⟩

/-- Exact product of two rationals, written through `mkRat` so that the
kernel can evaluate it on closed inputs (`Rat.mul` itself is marked
irreducible). -/
def pfMul (a b : Rat) : Rat :=
  mkRat (a.num * b.num) (a.den * b.den)

/-- Exact quotient of two rationals (same value as `a / b`, including
`a / 0 = 0`, which no guarded call site reaches), kernel-evaluable. -/
def pfDiv (a b : Rat) : Rat :=
  if b.num < 0 then mkRat (-(a.num * (b.den : Int))) (a.den * b.num.natAbs)
  else mkRat (a.num * (b.den : Int)) (a.den * b.num.natAbs)

/-- Exact difference of two rationals, kernel-evaluable. -/
def pfSub (a b : Rat) : Rat :=
  mkRat (a.num * (b.den : Int) - b.num * (a.den : Int)) (a.den * b.den)

/-- Floor of a rational (its denominator is positive by invariant). -/
def pfFloor (q : Rat) : Int :=
  q.num.fdiv (q.den : Int)

/-- Python `round` (round half to even) on a rational. -/
def pyRound (q : Rat) : Int :=
  let f : Int := pfFloor q
  let r : Rat := pfSub q (mkRat f 1)
  if r < mkRat 1 2 then f
  else if mkRat 1 2 < r then f + 1
  else if f % 2 = 0 then f else f + 1

/-!  ## Dates

`slot_policy._parse_date` and `adjustments._parse_date` both run
`datetime.strptime(s, "%Y-%m-%d")` and fall back to 1970-01-01 when the
parse raises.  A date is the triple (year, month, day); comparison of
`datetime` values over equal time-of-day is lexicographic on the triple. -/

abbrev Date := Nat × Nat × Nat

def isLeapYear (y : Nat) : Bool :=
  y % 4 = 0 && (y % 100 != 0 || y % 400 = 0)

def daysInMonth (y m : Nat) : Nat :=
  if m = 1 || m = 3 || m = 5 || m = 7 || m = 8 || m = 10 || m = 12 then 31
  else if m = 4 || m = 6 || m = 9 || m = 11 then 30
  else if isLeapYear y then 29 else 28

/-- One `%Y`/`%m`/`%d` field: between one and `maxLen` ASCII digits. -/
def strptimeField (l : List Char) (maxLen : Nat) : Option Nat :=
  if l ≠ [] && l.length ≤ maxLen && l.all Char.isDigit then
    some (digitsToNat l)
  else none

/-- Split a character list at every occurrence of `c` (always returns at
least one, possibly empty, part). -/
def splitOnChar (c : Char) : List Char → List (List Char)
  | [] => [[]]
  | x :: xs =>
    match splitOnChar c xs with
    | [] => [[x]]
    | h :: t => if x = c then [] :: h :: t else (x :: h) :: t

/-- `datetime.strptime(s, "%Y-%m-%d")`, `none` when it would raise
(wrong shape, field out of range, or no such calendar day). -/
def strptimeYmd (s : String) : Option Date :=
  match splitOnChar '-' s.toList with
  | [ys, ms, ds] =>
    match strptimeField ys 4, strptimeField ms 2, strptimeField ds 2 with
    | some y, some m, some d =>
      if 1 ≤ y && 1 ≤ m && m ≤ 12 && 1 ≤ d && d ≤ daysInMonth y m then
        some (y, m, d)
      else none
    | _, _, _ => none
  | _ => none

/-- The `_parse_date` helper shared (textually duplicated) by
`slot_policy.py` and `adjustments.py`: parse, fall back to 1970-01-01. -/
def pyParseDate (s : String) : Date :=
  (strptimeYmd s).getD (1970, 1, 1)

/-- `datetime` comparison `a <= b` (dates at midnight): lexicographic. -/
def dateLeB (a b : Date) : Bool :=
  a.1 < b.1 || (a.1 = b.1 && (a.2.1 < b.2.1 ||
    (a.2.1 = b.2.1 && a.2.2 ≤ b.2.2)))

/-!  ## Race metadata (src/app.py loads it; the core only reads it) -/

/-- The `slots` field of a race: either a plain integer or a per-gender
mapping (a JSON object keyed by gender). -/
inductive SlotsVal where
  | num (n : Int)
  | table (entries : List (String × Int))
  deriving DecidableEq

/-- Per-gender dynamic allocation record built by
`compute_dynamic_slots`. -/
structure GenderAlloc where
  winner_slots : Int
  pool_slots : Int
  total_slots : Int
  deriving DecidableEq

/-- The `dynamic_slots` value for a race (`men`, `women`, `computed_at`
keys of the dict built in `compute_dynamic_slots`). -/
structure DynAlloc where
  men : GenderAlloc
  women : GenderAlloc
  computed_at : Int
  deriving DecidableEq

/-- The `started_counts` value built by `get_started_counts`. -/
structure StartedCounts where
  men : Int
  women : Int
  computed_at : Int
  deriving DecidableEq

/-- The race dict fields consumed by the pipeline.  `none` models an
absent key. -/
structure Race where
  key : Option String := none
  name : Option String := none
  date : Option String := none
  distance : Option String := none
  earliestStartTime : Option Int := none
  slot_policy : Option String := none
  slots : Option SlotsVal := none
  age_group_categories : Option (List (String × List String)) := none
  dynamic_slots : Option DynAlloc := none
  started_counts : Option StartedCounts := none
  /-- `race['results_urls']['start']` gender-to-URL entries. -/
  startUrls : List (String × String) := []
  deriving DecidableEq

/-- First value for a key in an association list (Python dict lookup for
the dicts we model as lists of pairs, which the source never shadows). -/
def lookupAssoc {α : Type} (l : List (String × α)) (k : String) : Option α :=
  (l.find? (fun p => p.1 = k)).map (·.2)

/-- Python dict update `d[k] = v` for the association-list model. -/
def setAssoc {α : Type} (l : List (String × α)) (k : String) (v : α) :
    List (String × α) :=
  if (l.find? (fun p => p.1 = k)).isSome then
    l.map (fun p => if p.1 = k then (k, v) else p)
  else l ++ [(k, v)]

/-- `int(race.get('earliestStartTime', 0) or 0)`. -/
def earliestStart (race : Race) : Int :=
  race.earliestStartTime.getD 0

/-!  ## src/slot_policy.py -/

def allowedPolicies : List String :=
  ["combined-fixed", "split-fixed", "split-dynamic"]

/-- `isinstance(slots, dict) and ("men" in slots or "women" in slots)`. -/
def slotsGenderKeyed (race : Race) : Bool :=
  match race.slots with
  | some (SlotsVal.table entries) =>
    (lookupAssoc entries "men").isSome || (lookupAssoc entries "women").isSome
  | _ => false

/-- `race.get("date") or "1970-01-01"` (`None` and `""` both fall back). -/
def raceDateStr (race : Race) : String :=
  match race.date with
  | some d => if d = "" then "1970-01-01" else d
  | none => "1970-01-01"

/-- The inference part of `slot_policy.resolve_slot_policy` (its body
after the explicit-override check). -/
def resolveSlotPolicyInferred (race : Race) : String :=
  if slotsGenderKeyed race then "split-fixed"
  else if race.distance = some "140.6" then
    let boundary := pyParseDate "2025-11-14"
    let rDate := pyParseDate (raceDateStr race)
    if dateLeB boundary rDate then "split-dynamic" else "combined-fixed"
  else if race.distance = some "70.3" then "split-fixed"
  else "combined-fixed"

/-- `slot_policy.resolve_slot_policy` (the `now` parameter of the source
is unused there and omitted). -/
def resolveSlotPolicy (race : Race) : String :=
  match race.slot_policy with
  | some explicit =>
    if explicit ∈ allowedPolicies then explicit else resolveSlotPolicyInferred race
  | none => resolveSlotPolicyInferred race

/-- `slot_policy.policy_needs_gender`. -/
def policyNeedsGender (policy : String) : Bool :=
  policy = "split-fixed" || policy = "split-dynamic"

/-!  ## TimeCodec (src/parse_live_data.py) -/

/-- `time_to_seconds`: `re.match` of `(\d+):(\d+):(\d+)` anchored at the
start of the string (trailing characters are allowed), `None` when the
prefix does not match. -/
def timeToSeconds (s : String) : Option Nat :=
  let (h, r1) := s.toList.span Char.isDigit
  if h = [] then none else
  match r1 with
  | ':' :: r2 =>
    let (m, r3) := r2.span Char.isDigit
    if m = [] then none else
    match r3 with
    | ':' :: r4 =>
      let (sec, _) := r4.span Char.isDigit
      if sec = [] then none else
      some (digitsToNat h * 3600 + digitsToNat m * 60 + digitsToNat sec)
    | _ => none
  | _ => none

/-- Two-digit zero padding used by the f-string `{n:02d}`. -/
def pad2 (n : Nat) : String :=
  if n < 10 then "0" ++ toString n else toString n

/-- `seconds_to_time`: empty string for negative input, otherwise format
`HH:MM:SS` of `timedelta(seconds=q).seconds` (the float is rounded to
whole microseconds, days beyond 24h are dropped by `.seconds`). -/
def secondsToTime (q : Rat) : String :=
  if q < 0 then ""
  else
    let micros : Int := pyRound (pfMul q (mkRat 1000000 1))
    let t : Nat := (micros / 1000000).toNat % 86400
    let hours := t / 3600
    let rem := t % 3600
    pad2 hours ++ ":" ++ pad2 (rem / 60) ++ ":" ++ pad2 (rem % 60)

/-!  ## GradingEngine: process_live_results -/

/-- One raw athlete record from the feed (`athlete_record` fields the
parser consumes). -/
structure RawItem where
  time : Option String := none
  division : Option String := none
  bib : Option String := none
  name : Option String := none
  place : Option String := none
  deriving DecidableEq

/-- One processed result entry (the dict built in
`process_live_results`; `graded_place` and `ag_place` are filled in by
the ranking pass and are `0` before it). -/
structure Entry where
  bib : String
  name : String
  age_group : String
  finish_time : String
  finish_time_seconds : Nat
  gender_place : String
  graded_time_seconds : Rat
  graded_time : String
  unique_key : Option String × String
  graded_place : Nat := 0
  ag_place : Nat := 0
  deriving DecidableEq

/-- Factor table: `age_group -> multiplier` (`ag_adjustments`). -/
abbrev FactorTable := List (String × Rat)

/-- `ag_adjustments.get(age_group, 1.0)`. -/
def lookupFactor (adj : FactorTable) (ag : String) : Rat :=
  (lookupAssoc adj ag).getD 1

/-- The regex `^([MF])(\d{2})-?(\d{2})$` with `re.IGNORECASE`, applied
to the whitespace-stripped division, fused with the normalization
`f"{sex}{a}-{b}"` (sex upper-cased): returns the canonical division or
`none` when the pattern does not match.  `\d` and the case fold are
taken on the ASCII range the feed uses. -/
def agMatchL : List Char → Option String
  | sex :: a1 :: a2 :: rest =>
    if (sex = 'M' || sex = 'F' || sex = 'm' || sex = 'f')
        && a1.isDigit && a2.isDigit then
      match rest with
      | [b1, b2] =>
        if b1.isDigit && b2.isDigit then
          some ⟨[sex.toUpper, a1, a2, '-', b1, b2]⟩
        else none
      | ['-', b1, b2] =>
        if b1.isDigit && b2.isDigit then
          some ⟨[sex.toUpper, a1, a2, '-', b1, b2]⟩
        else none
      | _ => none
    else none
  | _ => none

/-- `agMatchL` on the character list of the stripped division string. -/
def agMatch (s : String) : Option String :=
  agMatchL s.toList

/-- The body of the per-item loop of `process_live_results`: parse the
finish time (sub-second part split off first), filter and normalize the
division, grade, and build the entry; `none` when the item is skipped.
The `KeyError`/`TypeError` guard of the source cannot fire in the typed
model. -/
def parseOne (adj : FactorTable) (item : RawItem) : Option Entry :=
  let finishRaw : String := ⟨(item.time.getD "").toList.takeWhile (fun c => c ≠ '.')⟩
  match timeToSeconds finishRaw with
  | none => none
  | some fs =>
    let rawDivision := item.division.getD ""
    match agMatch (stripPyWs rawDivision) with
    | none => none
    | some ag =>
      let factor := lookupFactor adj ag
      let graded : Rat := pfMul (fs : Rat) factor
      some { bib := item.bib.getD "N/A"
             name := item.name.getD "N/A"
             age_group := ag
             finish_time := finishRaw
             finish_time_seconds := fs
             gender_place := item.place.getD "N/A"
             graded_time_seconds := graded
             graded_time := secondsToTime graded
             unique_key := (item.name, finishRaw) }

/-- The relation `processed_data.sort(key=lambda x: x["graded_time_seconds"])`
sorts by. -/
def gradedLe (a b : Entry) : Prop :=
  a.graded_time_seconds ≤ b.graded_time_seconds

instance : DecidableRel gradedLe := fun a b =>
  inferInstanceAs (Decidable (a.graded_time_seconds ≤ b.graded_time_seconds))

instance : IsTotal Entry gradedLe :=
  ⟨fun a b => le_total a.graded_time_seconds b.graded_time_seconds⟩

instance : IsTrans Entry gradedLe :=
  ⟨fun _ _ _ hab hbc => le_trans hab hbc⟩

/-- Python list `sort` (stable, ascending on the key): insertion sort by
graded seconds. -/
def sortByGraded (l : List Entry) : List Entry :=
  List.insertionSort gradedLe l

/-- One iteration of the ranking loop: the entry at 0-based position
`idx` receives the place of `prev` when its graded time is exactly equal
and its own 1-based position `idx + 1` otherwise, and its per-age-group
counter value. -/
def placeNext (prev : Entry) (idx : Nat) (agCounters : List (String × Nat))
    (y : Entry) : Entry :=
  { y with
    graded_place := if y.graded_time_seconds = prev.graded_time_seconds then
      prev.graded_place else idx + 1
    ag_place := (lookupAssoc agCounters y.age_group).getD 0 + 1 }

/-- The loop over `processed_data[1:]` assigning `graded_place` (ties
share the place of the predecessor, a new time gets the 1-based
position) and the per-age-group `ag_place` counters.  `prev` is the
already-annotated predecessor, `idx` the 0-based position of the entry
under consideration. -/
def placeLoop (prev : Entry) (idx : Nat) (agCounters : List (String × Nat)) :
    List Entry → List Entry
  | [] => []
  | y :: ys =>
    let y2 := placeNext prev idx agCounters y
    y2 :: placeLoop y2 (idx + 1)
      (setAssoc agCounters y.age_group ((lookupAssoc agCounters y.age_group).getD 0 + 1)) ys

/-- The ranking pass of `process_live_results` over the sorted list. -/
def assignPlaces : List Entry → List Entry
  | [] => []
  | x :: xs =>
    let x2 := { x with graded_place := 1, ag_place := 1 }
    x2 :: placeLoop x2 1 [(x.age_group, 1)] xs

/-- `process_live_results` over a raw record list (the non-list input
guard of the source cannot fire in the typed model). -/
def processLiveResults (raw : List RawItem) (adj : FactorTable) : List Entry :=
  assignPlaces (sortByGraded (raw.filterMap (parseOne adj)))

/-!  ## src/cache_utils.py: paths and the file-backed store -/

/-- `os.path.dirname(__file__)` of cache_utils, an arbitrary fixed
directory. -/
def baseDir : String := "src"

/-- The gender fallback of `get_cache_dir` for 70.3: anything other than
men/women falls back to men. -/
def normGender (gender : Option String) : String :=
  match gender with
  | some "men" => "men"
  | some "women" => "women"
  | _ => "men"

/-- The directory part of `get_cache_dir` before the `stage` component:
`get_cache_dir` always ends the relative path with `stage`, so the full
directory is this prefix followed by `stage`.  For 70.3 a gender outside
men/women falls back to men; an absent or empty distance goes under
`other`. -/
def cacheDirPre (distance : Option String) (gender : Option String) : String :=
  if distance = some "70.3" then
    baseDir ++ "/data/70.3/" ++ normGender gender ++ "/"
  else if distance = some "140.6" then
    baseDir ++ "/data/140.6/"
  else
    let d := match distance with
      | some d => if d = "" then "other" else d
      | none => "other"
    baseDir ++ "/data/" ++ d ++ "/"

/-- `get_cache_dir` (the `ensure_dir` side effect carries no data). -/
def getCacheDir (distance : Option String) (stage : String)
    (gender : Option String) : String :=
  cacheDirPre distance gender ++ stage

/-- `race.get('key') or race.get('name', 'unknown').replace(' ', '_').upper()`. -/
def raceKeyName (race : Race) : String :=
  match race.key with
  | some k => if k = "" then
      pyUpper (pyReplaceSpaceUnderscore (race.name.getD "unknown")) else k
  | none => pyUpper (pyReplaceSpaceUnderscore (race.name.getD "unknown"))

/-- `get_cache_file_path`. -/
def getCacheFilePath (race : Race) (stage : String) (gender : Option String) :
    String :=
  getCacheDir race.distance stage gender ++ "/" ++ raceKeyName race ++ ".json"

/-- A cache file on disk: the JSON document (always a processed result
list, errors are never written) and its mtime. -/
structure CacheFile where
  data : List Entry
  mtime : Int
  deriving DecidableEq

/-- The file system as seen through cache_utils: path to file. -/
def Store := String → Option CacheFile

/-- `read_json_if_exists` (read errors and missing file both give
`None`). -/
def readJsonIfExists (st : Store) (path : String) : Option (List Entry) :=
  (st path).map (·.data)

/-- `write_json`: plain overwrite of the destination path; the mtime
becomes the current time.  (Write errors are swallowed in the source; the
model records the successful write.) -/
def writeJson (st : Store) (now : Int) (path : String) (d : List Entry) :
    Store :=
  fun p => if p = path then some ⟨d, now⟩ else st p

/-- `is_fresh`: mtime within the freshness window; `False` when the file
is missing. -/
def isFresh (st : Store) (now : Int) (path : String) (freshness : Int) : Bool :=
  match st path with
  | some f => now - f.mtime ≤ freshness
  | none => false

/-!  ## get_processed_results (fetch, merge, filter, grade) -/

/-- What `fetch_live_results` hands back for one feed URL: either the
error envelope (transport errors and the distinguished
`no_finishers`) or the `"list"` payload (absent key reads as `[]`,
already folded into the oracle). -/
inductive FetchRes where
  | err (msg : String)
  | ok (list : List RawItem)
  deriving DecidableEq

/-- `raw_data.get("list", [])` on an error envelope gives `[]`. -/
def FetchRes.listOf : FetchRes → List RawItem
  | .err _ => []
  | .ok l => l

/-- A fetch oracle: the outcome of `fetch_live_results` for each gender
feed of the race under consideration. -/
def FetchEnv := String → FetchRes

/-- `if not gender: gender = 'men'` (None and empty string are falsy). -/
def orMen (gender : Option String) : String :=
  match gender with
  | some g => if g = "" then "men" else g
  | none => "men"

/-- The fetch-and-merge part of `get_processed_results`: everything
before the `if not all_data_list` check, with the early error returns
as `Except.error`. -/
def collectedRaw (race : Race) (gender : Option String) (env : FetchEnv) :
    Except String (List RawItem) :=
  let policy := resolveSlotPolicy race
  if policyNeedsGender policy then
    match env (orMen gender) with
    | .err e => .error e
    | .ok l => .ok l
  else
    if race.distance = some "70.3" || race.distance = some "140.6" then
      match env "men", env "women" with
      | .err e, .err _ => .error e
      | mData, wData => .ok (mData.listOf ++ wData.listOf)
    else
      .error ("Invalid race distance: " ++
        (match race.distance with | some d => d | none => "None"))

/-- `get_processed_results`. -/
def getProcessedResults (race : Race) (gender : Option String)
    (adj : FactorTable) (env : FetchEnv) : Except String (List Entry) :=
  match collectedRaw race gender env with
  | .error e => .error e
  | .ok allDataList =>
    if allDataList = [] then
      .error "No live data found for the selected race."
    else
      .ok (processLiveResults allDataList adj)

/-!  ## get_processed_results_cached (two-tier cache discipline) -/

/-- App config and clock for a single call. -/
structure CacheCfg where
  now : Int
  freshness : Int := 60
  delayHours : Int := 24
  deriving DecidableEq

/-- Result of one cached call: the returned document or error, the file
system afterwards, and whether the grader/fetch step ran. -/
structure CachedOut where
  result : Except String (List Entry)
  store : Store
  fetched : Bool

/-- `gender or 'men'` for split policies, `None` for combined-fixed. -/
def effectiveGender (race : Race) (gender : Option String) : Option String :=
  if policyNeedsGender (resolveSlotPolicy race) then some (orMen gender) else none

/-- The pre-final-window part of `get_processed_results_cached`: serve a
fresh in_progress entry, otherwise fetch and overwrite in_progress on
success (errors are returned without touching the cache). -/
def preFinalStep (cfg : CacheCfg) (env : FetchEnv) (race : Race)
    (eg : Option String) (adj : FactorTable) (st : Store) : CachedOut :=
  let inprogPath := getCacheFilePath race "in_progress" eg
  let freshHit :=
    if isFresh st cfg.now inprogPath cfg.freshness then
      readJsonIfExists st inprogPath
    else none
  match freshHit with
  | some d => ⟨.ok d, st, false⟩
  | none =>
    match getProcessedResults race eg adj env with
    | .error e => ⟨.error e, st, true⟩
    | .ok d => ⟨.ok d, writeJson st cfg.now inprogPath d, true⟩

/-- The final-window part of `get_processed_results_cached`: serve an
existing final entry verbatim, otherwise fetch once and persist the
success to the final tier (errors are returned without writing). -/
def finalStep (cfg : CacheCfg) (env : FetchEnv) (race : Race)
    (eg : Option String) (adj : FactorTable) (st : Store) : CachedOut :=
  let finalPath := getCacheFilePath race "final" eg
  match readJsonIfExists st finalPath with
  | some d => ⟨.ok d, st, false⟩
  | none =>
    match getProcessedResults race eg adj env with
    | .error e => ⟨.error e, st, true⟩
    | .ok d => ⟨.ok d, writeJson st cfg.now finalPath d, true⟩

/-- `final_ready`: `earliest_start > 0 and now >= earliest_start +
delay_hours * 3600`. -/
def finalReady (cfg : CacheCfg) (race : Race) : Bool :=
  0 < earliestStart race && earliestStart race + cfg.delayHours * 3600 ≤ cfg.now

/-- `get_processed_results_cached`. -/
def getProcessedResultsCached (cfg : CacheCfg) (env : FetchEnv) (race : Race)
    (gender : Option String) (adj : FactorTable) (st : Store) : CachedOut :=
  let eg := effectiveGender race gender
  if finalReady cfg race then finalStep cfg env race eg adj st
  else preFinalStep cfg env race eg adj st

/-!  ## SlotAllocator: annotate_slot_allocation -/

/-- The result-entry fields `annotate_slot_allocation` consumes and
sets. -/
structure SlotAthlete where
  ag_place : Option Int := none
  age_group : Option String := none
  ag_winner : Bool := false
  pool_qualifier : Bool := false
  deriving DecidableEq

/-- The total-slot determination at the top of
`annotate_slot_allocation`.  `none` is the early `return results_list`
of the split-dynamic branch when the allocation is not ready (the claim
calls this an undeterminable total).  `dynOracle` stands for the return
value of the `compute_dynamic_slots(race_obj)` call made when the race
object carries no `dynamic_slots` yet (that call is modelled on its own
below; its exception on persistence is settled under the
dynamic-persistence claim). -/
def annotateTotal (race : Race) (selectedGender : String)
    (dynOracle : Option DynAlloc) : Option Int :=
  let policy := resolveSlotPolicy race
  if policy = "split-fixed" then
    match race.slots with
    | some (SlotsVal.table entries) =>
      match lookupAssoc entries selectedGender with
      | some v => some v
      | none => some 0
    | _ => some 0
  else if policy = "combined-fixed" then
    match race.slots with
    | some (SlotsVal.num n) => some n
    | some (SlotsVal.table _) => some 0
    | none => some 0
  else if policy = "split-dynamic" then
    match race.dynamic_slots <|> dynOracle with
    | some d =>
      if selectedGender = "men" then some d.men.total_slots
      else if selectedGender = "women" then some d.women.total_slots
      else none
    | none => none
  else some 0

/-- The winner pass: flag initialization to `False` followed by marking
every `ag_place == 1` entry as an age-group winner. -/
def markWinners (l : List SlotAthlete) : List SlotAthlete :=
  l.map (fun a =>
    if a.ag_place = some 1 then
      { a with ag_winner := true, pool_qualifier := false }
    else
      { a with ag_winner := false, pool_qualifier := false })

/-- `len(winners_by_ag)`: the number of distinct `age_group` values
among the `ag_place == 1` entries (the source accumulates them in a
set). -/
def winnersByAgCount (l : List SlotAthlete) : Nat :=
  (((l.filter (fun a => a.ag_place = some 1)).map (·.age_group)).dedup).length

/-- The pool walk: mark the first `remaining` non-winner entries as pool
qualifiers; the `break` leaves the tail untouched. -/
def markPool (remaining : Nat) : List SlotAthlete → List SlotAthlete
  | [] => []
  | a :: rest =>
    if remaining = 0 then a :: rest
    else if a.ag_winner then a :: markPool remaining rest
    else { a with pool_qualifier := true } :: markPool (remaining - 1) rest

/-- `annotate_slot_allocation`. -/
def annotateSlotAllocation (results : List SlotAthlete) (race : Race)
    (selectedGender : String) (dynOracle : Option DynAlloc) :
    List SlotAthlete :=
  match annotateTotal race selectedGender dynOracle with
  | none => results
  | some totalSlots =>
    let initialized := results.map
      (fun a => { a with ag_winner := false, pool_qualifier := false })
    if totalSlots ≤ 0 ∨ results = [] then initialized
    else
      let withWinners := markWinners results
      let remaining : Nat := (totalSlots - (winnersByAgCount results : Int)).toNat
      if remaining = 0 then withWinners
      else markPool remaining withWinners

/-!  ## DynamicSlotCalculator and its persistence

The dynamic-slot persistence document is written by
`_save_dynamic_cache`, which calls `cache.write_json_atomic(...)`.
`cache_utils.py` binds no such name, so the call raises
`AttributeError`; the names actually bound at module level in
cache_utils are listed here so the failure is derived, not asserted. -/

/-- Top-level names bound in the cache_utils module (defs, module-level
values and imports). -/
def cacheUtilsNames : List String :=
  ["os", "json", "time", "logging", "current_app", "has_app_context",
   "full_path", "_logger", "_debug", "_warning", "ensure_dir",
   "get_cache_dir", "get_cache_file_path", "read_json_if_exists",
   "write_json", "is_fresh", "has_official_ag"]

/-- `_save_dynamic_cache`: the attribute lookup
`cache.write_json_atomic` succeeds only if cache_utils binds that name,
otherwise `AttributeError` is raised before anything reaches disk. -/
def saveDynamicCache : Except PyErr Unit :=
  if "write_json_atomic" ∈ cacheUtilsNames then .ok () else .error .attributeError

/-- `race.get('key') or race.get('name', '').replace(' ', '_').upper()`
(the key under which dynamic state is persisted). -/
def dynKey (race : Race) : String :=
  match race.key with
  | some k => if k = "" then pyUpper (pyReplaceSpaceUnderscore (race.name.getD "")) else k
  | none => pyUpper (pyReplaceSpaceUnderscore (race.name.getD ""))

/-- `persist_dynamic_state`: no-op for a falsy key or an empty entry,
otherwise it updates the in-memory dict and calls `_save_dynamic_cache`
(whose exception propagates; the in-memory update is then lost with the
raised call). -/
def persistDynamicState (race : Race) : Except PyErr Unit :=
  if dynKey race = "" then .ok ()
  else if race.dynamic_slots = none ∧ race.started_counts = none then .ok ()
  else saveDynamicCache

/-- The fetch-and-store part of `get_started_counts` (both gender counts
required; persists early via `persist_dynamic_state`).  `env` maps a
start-split URL to the `cattotal` of `fetch_start_count` (`none` on any
fetch error). -/
def getStartedCountsFetch (env : String → Option Int) (now : Int)
    (race : Race) : Except PyErr (Option StartedCounts × Race) :=
  if race.startUrls = [] then .ok (none, race)
  else
    let menCount := match lookupAssoc race.startUrls "men" with
      | some url => env url
      | none => none
    let womenCount := match lookupAssoc race.startUrls "women" with
      | some url => env url
      | none => none
    match menCount, womenCount with
    | some m, some w =>
      let counts : StartedCounts := ⟨m, w, now⟩
      let race1 := { race with started_counts := some counts }
      match persistDynamicState race1 with
      | .error e => .error e
      | .ok _ => .ok (some counts, race1)
    | _, _ => .ok (none, race)

/-- `get_started_counts`. -/
def getStartedCounts (env : String → Option Int) (now : Int) (race : Race) :
    Except PyErr (Option StartedCounts × Race) :=
  let es := earliestStart race
  if es ≤ 0 then .ok (none, race)
  else
    match race.started_counts with
    | some c =>
      if es + 3600 ≤ now then .ok (some c, race)
      else getStartedCountsFetch env now race
    | none => getStartedCountsFetch env now race

/-- `int(race.get('slots', 0))` under `try/except -> 0` (a dict value
raises `TypeError`). -/
def slotsAsIntOrZero (race : Race) : Int :=
  match race.slots with
  | some (SlotsVal.num n) => n
  | some (SlotsVal.table _) => 0
  | none => 0

/-- `compute_dynamic_slots`. -/
def computeDynamicSlots (env : String → Option Int) (now : Int)
    (race : Race) : Except PyErr (Option DynAlloc × Race) :=
  if resolveSlotPolicy race ≠ "split-dynamic" then .ok (none, race)
  else
    let es := earliestStart race
    if es ≤ 0 ∨ now < es + 3600 then .ok (none, race)
    else
      let totalSlots := slotsAsIntOrZero race
      if totalSlots ≤ 0 then .ok (none, race)
      else
        let agLists := race.age_group_categories.getD []
        let menWinnerSlots : Int := ((lookupAssoc agLists "men").getD []).length
        let womenWinnerSlots : Int := ((lookupAssoc agLists "women").getD []).length
        if menWinnerSlots = 0 ∧ womenWinnerSlots = 0 then .ok (none, race)
        else
          match getStartedCounts env now race with
          | .error e => .error e
          | .ok (none, race1) => .ok (none, race1)
          | .ok (some counts, race1) =>
            let menStarted := counts.men
            let womenStarted := counts.women
            let totalStarted := menStarted + womenStarted
            if totalStarted ≤ 0 then .ok (none, race1)
            else
              let autoSlotsTotal := menWinnerSlots + womenWinnerSlots
              let performancePool := max 0 (totalSlots - autoSlotsTotal)
              let menPool := pyRound
                (pfMul (mkRat performancePool 1)
                  (pfDiv (mkRat menStarted 1) (mkRat totalStarted 1)))
              let womenPool := performancePool - menPool
              let result : DynAlloc :=
                { men := ⟨menWinnerSlots, menPool, menWinnerSlots + menPool⟩
                  women := ⟨womenWinnerSlots, womenPool, womenWinnerSlots + womenPool⟩
                  computed_at := now }
              let race2 := { race1 with dynamic_slots := some result }
              match persistDynamicState race2 with
              | .error e => .error e
              | .ok _ => .ok (some result, race2)

/-!  ## AdjustmentVersionResolver (src/adjustments.py) -/

/-- One manifest `versions` record. -/
structure VersionEntry where
  id : Option String := none
  distance : Option String := none
  effective_from : Option String := none
  file : Option String := none
  deriving DecidableEq

/-- Python string `<` (lexicographic on code points, shorter prefix
first), used by `versions.sort(key=lambda v: v.get('effective_from',
'1970-01-01'))` which compares the raw strings. -/
def pyStrLtL : List Char → List Char → Bool
  | [], [] => false
  | [], _ :: _ => true
  | _ :: _, [] => false
  | a :: as, b :: bs =>
    if a.toNat < b.toNat then true
    else if a.toNat = b.toNat then pyStrLtL as bs
    else false

/-- Python string `<=`. -/
def pyStrLe (a b : String) : Bool :=
  !(pyStrLtL b.toList a.toList)

/-- The sort key of `_versions_for_distance`. -/
def effKey (v : VersionEntry) : String :=
  v.effective_from.getD "1970-01-01"

/-- The comparison `_versions_for_distance` sorts by. -/
def effLe (u v : VersionEntry) : Prop :=
  pyStrLe (effKey u) (effKey v) = true

instance : DecidableRel effLe := fun u v =>
  inferInstanceAs (Decidable (pyStrLe (effKey u) (effKey v) = true))

/-- `_versions_for_distance`: filter the manifest to the race distance
and sort ascending by `effective_from` (Python sort: stable). -/
def versionsForDistance (manifest : List VersionEntry)
    (distance : Option String) : List VersionEntry :=
  List.insertionSort effLe (manifest.filter (fun v => v.distance = distance))

/-- The loop of `_select_version`: keep the last version whose parsed
`effective_from` is at most the race date, stop at the first later
one. -/
def selectLoop (rd : Date) (sel : Option VersionEntry) :
    List VersionEntry → Option VersionEntry
  | [] => sel
  | v :: rest =>
    if dateLeB (pyParseDate (effKey v)) rd then selectLoop rd (some v) rest
    else sel

/-- `_select_version`. -/
def selectVersion (vs : List VersionEntry) (raceDate : String) :
    Option VersionEntry :=
  selectLoop (pyParseDate raceDate) none vs

/-- The manifest and factor-table files as adjustments.py sees them
(in-memory caches are transparent: they only memoize these reads). -/
structure AdjEnv where
  manifest : List VersionEntry
  files : String → Option FactorTable

/-- The persisted assignments document: `race_key ->
{'adjustments_version': id}`, modelled as `race_key -> id`. -/
abbrev Assignments := List (String × String)

/-- `race.get('key') or f"{race.get('name','UNKNOWN')}-{race.get('date','UNKNOWN')}"`. -/
def raceKeyAdj (race : Race) : String :=
  match race.key with
  | some k =>
    if k = "" then (race.name.getD "UNKNOWN") ++ "-" ++ (race.date.getD "UNKNOWN")
    else k
  | none => (race.name.getD "UNKNOWN") ++ "-" ++ (race.date.getD "UNKNOWN")

/-- The select-by-date-and-persist tail of `get_adjustments_for_race`
(from the `_select_version` call on): missing version is a fatal
`RuntimeError`; on success the assignment is recorded (the atomic file
write may fail, but the in-memory assignments are updated first and the
fresh factors are returned regardless). -/
def adjSelectAndAssign (env : AdjEnv) (assignments : Assignments)
    (race : Race) : Except PyErr ((FactorTable × String) × Assignments) :=
  match selectVersion (versionsForDistance env.manifest race.distance)
      (raceDateStr race) with
  | none => .error .runtimeError
  | some entry =>
    match entry.id with
    | none => .error .keyError
    | some vid =>
      match entry.file with
      | none => .error .keyError
      | some fp =>
        match env.files fp with
        | none => .error .fileNotFound
        | some tbl =>
          .ok ((tbl, vid), setAssoc assignments (raceKeyAdj race) vid)

/-- `get_adjustments_for_race`: the fast path returns the factors of the
already-assigned version when that id is still found in the manifest for
the distance (leaving the assignments untouched); otherwise fall through
to selection by date. -/
def getAdjustmentsForRace (env : AdjEnv) (assignments : Assignments)
    (race : Race) : Except PyErr ((FactorTable × String) × Assignments) :=
  match lookupAssoc assignments (raceKeyAdj race) with
  | some vid =>
    match (versionsForDistance env.manifest race.distance).find?
        (fun v => v.id = some vid) with
    | some entry =>
      match entry.file with
      | none => .error .keyError
      | some fp =>
        match env.files fp with
        | none => .error .fileNotFound
        | some tbl => .ok ((tbl, vid), assignments)
    | none => adjSelectAndAssign env assignments race
  | none => adjSelectAndAssign env assignments race

/-!  ## File-write shapes (the atomicity discipline of the claims)

Each writer is summarized by the sequence of file-system mutations it
performs, in order. -/

/-- One file-system mutation. -/
inductive FsOp where
  | makeDirs (path : String)
  | writeFile (path : String)
  | replaceFile (src dst : String)
  deriving DecidableEq

/-- `cache_utils.write_json` (used for both in_progress and final result
cache entries): ensure the directory, then open and write the
destination path itself. -/
def writeJsonOps (path : String) : List FsOp :=
  [FsOp.makeDirs "dir", FsOp.writeFile path]

/-- `adjustments._save_json_atomic`: write a sibling temp file, then
`os.replace` it over the destination. -/
def saveJsonAtomicOps (path : String) : List FsOp :=
  [FsOp.writeFile (path ++ ".tmp"), FsOp.replaceFile (path ++ ".tmp") path]

/-- The temp-file-then-atomic-rename discipline for a destination: the
destination file itself is never opened for writing, and the document
lands there through a final rename/replace. -/
def usesTempThenReplace (dst : String) (ops : List FsOp) : Bool :=
  (ops.all (fun op => match op with
    | FsOp.writeFile p => p ≠ dst
    | _ => true))
  && (match ops.getLast? with
    | some (FsOp.replaceFile _ d) => d = dst
    | _ => false)

/-!  ## Concrete fixtures used by the claim witnesses and counterexamples -/

deriving instance DecidableEq for Except

def c2Race : Race :=
  { key := some "RACEK", distance := some "140.6", date := some "2025-06-01" }

def c2Table : FactorTable := [("M18-24", mkRat 9 10)]

def c2EnvBefore : AdjEnv :=
  { manifest := [ { id := some "v1", distance := some "140.6",
                    effective_from := some "2025-01-01", file := some "f1.json" } ],
    files := fun p => if p = "f1.json" then some c2Table else none }

def c2EnvAfter : AdjEnv :=
  { manifest := [ { id := some "v1", distance := some "140.6",
                    effective_from := some "2025-01-01", file := some "f1.json" },
                  { id := some "v2", distance := some "140.6",
                    effective_from := some "2025-03-01", file := some "f2.json" } ],
    files := fun p => if p = "f1.json" then some c2Table
      else if p = "f2.json" then some [("M18-24", mkRat 4 5)] else none }

/-- The per-entry transformation done by the winner pass. -/
def winnerMark (a : SlotAthlete) : SlotAthlete :=
  if a.ag_place = some 1 then { a with ag_winner := true, pool_qualifier := false }
  else { a with ag_winner := false, pool_qualifier := false }

def cex4Race : Race :=
  { distance := some "140.6", date := some "2024-01-01", slots := some (SlotsVal.num 0) }

def c4Race : Race :=
  { distance := some "140.6", date := some "2024-01-01", slots := some (SlotsVal.num 5) }

def c4Results : List SlotAthlete :=
  [ { ag_place := some 1, age_group := some "M18-24" },
    { ag_place := some 1, age_group := some "M25-29" },
    { ag_place := some 1, age_group := some "F18-24" },
    { ag_place := some 2, age_group := some "M18-24" },
    { ag_place := some 2, age_group := some "M25-29" },
    { ag_place := some 3, age_group := some "M18-24" } ]

/-- Point update of the modelled file system. -/
def setStore (st : Store) (p : String) (v : Option CacheFile) : Store :=
  fun q => if q = p then v else st q

def c3Race : Race :=
  { key := some "IMWC25", distance := some "140.6", date := some "2024-01-01",
    earliestStartTime := some 1000 }

def c3Cfg : CacheCfg := { now := 90000 }

def c3Entry : CacheFile := ⟨[], 500⟩

def c3Store : Store :=
  fun p => if p = getCacheFilePath c3Race "final" (effectiveGender c3Race none)
    then some c3Entry else none

def c10Race : Race :=
  { key := some "NOSTART", distance := some "140.6", date := some "2024-01-01" }

def c1Raw : List RawItem :=
  [ { time := some "00:01:40", division := some "M18-24", name := some "a" },
    { time := some "00:01:40", division := some "M18-24", name := some "b" },
    { time := some "00:01:40", division := some "M25-29", name := some "c" },
    { time := some "00:01:45", division := some "M18-24", name := some "d" } ]

def c5r1113 : Race := { distance := some "140.6", date := some "2025-11-13" }
def c5r1114 : Race := { distance := some "140.6", date := some "2025-11-14" }
def c5r703 : Race := { distance := some "70.3", date := some "2025-06-01" }
def c5rOverride : Race :=
  { distance := some "140.6", date := some "2025-12-01",
    slot_policy := some "combined-fixed" }

def c6Race : Race :=
  { key := some "RACE1", distance := some "140.6", date := some "2025-12-01",
    earliestStartTime := some 1000, slots := some (SlotsVal.num 20),
    age_group_categories := some [("men", ["M18-24", "M25-29"]), ("women", ["F18-24"])],
    started_counts := some ⟨60, 40, 500⟩ }

def cex8Race : Race := { distance := some "70.3" }

def cex8Env : FetchEnv :=
  fun _ => FetchRes.ok [ { time := some "01:00:00", division := some "PRO" } ]

/-!  ## Theorems settling the claims -/

/-!  ## Lemmas about the ranking pass (claim C1) -/

lemma placeNext_graded (prev : Entry) (idx : Nat) (m : List (String × Nat))
    (y : Entry) : (placeNext prev idx m y).graded_time_seconds = y.graded_time_seconds := rfl

lemma placeLoop_length (l : List Entry) (prev : Entry) (idx : Nat)
    (m : List (String × Nat)) : (placeLoop prev idx m l).length = l.length := by
  induction l generalizing prev idx m with
  | nil => simp [placeLoop]
  | cons y ys ih => simp [placeLoop, ih]

lemma placeLoop_graded (l : List Entry) (prev : Entry) (idx : Nat)
    (m : List (String × Nat)) (i : Nat) :
    ((placeLoop prev idx m l)[i]?.map (·.graded_time_seconds))
      = (l[i]?.map (·.graded_time_seconds)) := by
  induction l generalizing prev idx m i with
  | nil => simp [placeLoop]
  | cons y ys ih =>
    cases i with
    | zero => simp [placeLoop, placeNext_graded]
    | succ j => simpa [placeLoop] using ih _ _ _ j

lemma placeLoop_place (l : List Entry) : ∀ (prev : Entry) (idx : Nat)
    (m : List (String × Nat)) (i : Nat) (e p : Entry),
    (placeLoop prev idx m l)[i]? = some e →
    ((i = 0 ∧ p = prev) ∨ (0 < i ∧ (placeLoop prev idx m l)[i-1]? = some p)) →
    e.graded_place =
      (if e.graded_time_seconds = p.graded_time_seconds then p.graded_place
       else idx + i + 1) := by
  induction l with
  | nil => intro prev idx m i e p he _; simp [placeLoop] at he
  | cons y ys ih =>
    intro prev idx m i e p he hp
    cases i with
    | zero =>
      rcases hp with ⟨_, rfl⟩ | ⟨h0, _⟩
      · simp [placeLoop] at he
        subst he
        simp [placeNext]
      · omega
    | succ j =>
      have he2 : (placeLoop (placeNext prev idx m y) (idx + 1)
          (setAssoc m y.age_group ((lookupAssoc m y.age_group).getD 0 + 1)) ys)[j]?
          = some e := by
        simpa [placeLoop] using he
      rcases hp with ⟨h0, _⟩ | ⟨_, hpj⟩
      · exact absurd h0 (by omega)
      cases j with
      | zero =>
        have hpv : p = placeNext prev idx m y := by
          have : some (placeNext prev idx m y) = some p := by
            simpa [placeLoop] using hpj
          exact (Option.some_injective _ this).symm
        subst hpv
        have := ih (placeNext prev idx m y) (idx + 1)
          (setAssoc m y.age_group ((lookupAssoc m y.age_group).getD 0 + 1)) 0 e
          (placeNext prev idx m y) he2 (Or.inl ⟨rfl, rfl⟩)
        rw [this]
      | succ k =>
        have hpk : (placeLoop (placeNext prev idx m y) (idx + 1)
            (setAssoc m y.age_group ((lookupAssoc m y.age_group).getD 0 + 1)) ys)[k]?
            = some p := by
          simpa [placeLoop] using hpj
        have := ih (placeNext prev idx m y) (idx + 1)
          (setAssoc m y.age_group ((lookupAssoc m y.age_group).getD 0 + 1)) (k + 1) e p
          he2 (Or.inr ⟨Nat.succ_pos k, by simpa using hpk⟩)
        rw [this]
        congr 1
        omega

lemma assignPlaces_length (l : List Entry) :
    (assignPlaces l).length = l.length := by
  cases l with
  | nil => rfl
  | cons x xs => simp [assignPlaces, placeLoop_length]

lemma assignPlaces_graded (l : List Entry) (i : Nat) :
    ((assignPlaces l)[i]?.map (·.graded_time_seconds))
      = (l[i]?.map (·.graded_time_seconds)) := by
  cases l with
  | nil => rfl
  | cons x xs =>
    cases i with
    | zero => simp [assignPlaces]
    | succ j => simpa [assignPlaces] using placeLoop_graded xs _ 1 _ j

lemma assignPlaces_place (l : List Entry) (i : Nat) (e p : Entry)
    (he : (assignPlaces l)[i]? = some e)
    (hp : 0 < i → (assignPlaces l)[i-1]? = some p) :
    e.graded_place = if i = 0 then 1
      else if e.graded_time_seconds = p.graded_time_seconds then p.graded_place
      else i + 1 := by
  cases l with
  | nil => simp [assignPlaces] at he
  | cons x xs =>
    cases i with
    | zero =>
      simp [assignPlaces] at he
      subst he; rfl
    | succ j =>
      have he2 : (placeLoop { x with graded_place := 1, ag_place := 1 } 1
          [(x.age_group, 1)] xs)[j]? = some e := by
        simpa [assignPlaces] using he
      have hpj := hp (Nat.succ_pos j)
      cases j with
      | zero =>
        have hpv : p = { x with graded_place := 1, ag_place := 1 } := by
          have : some ({ x with graded_place := 1, ag_place := 1 } : Entry) = some p := by
            simpa [assignPlaces] using hpj
          exact (Option.some_injective _ this).symm
        subst hpv
        have := placeLoop_place xs { x with graded_place := 1, ag_place := 1 } 1
          [(x.age_group, 1)] 0 e { x with graded_place := 1, ag_place := 1 }
          he2 (Or.inl ⟨rfl, rfl⟩)
        rw [this]
        simp
      | succ k =>
        have hpk : (placeLoop { x with graded_place := 1, ag_place := 1 } 1
            [(x.age_group, 1)] xs)[k]? = some p := by
          simpa [assignPlaces] using hpj
        have := placeLoop_place xs { x with graded_place := 1, ag_place := 1 } 1
          [(x.age_group, 1)] (k + 1) e p he2 (Or.inr ⟨Nat.succ_pos k, by simpa using hpk⟩)
        rw [this]
        by_cases hc : e.graded_time_seconds = p.graded_time_seconds
        · simp [hc]
        · simp [hc]
          omega

lemma sortByGraded_sorted (l : List Entry) :
    List.Sorted gradedLe (sortByGraded l) :=
  List.sorted_insertionSort gradedLe l

lemma assignPlaces_get_graded (l : List Entry) (i : Nat)
    (h1 : i < (assignPlaces l).length) (h2 : i < l.length) :
    ((assignPlaces l).get ⟨i, h1⟩).graded_time_seconds
      = (l.get ⟨i, h2⟩).graded_time_seconds := by
  have h := assignPlaces_graded l i
  rw [List.getElem?_eq_getElem h1, List.getElem?_eq_getElem h2] at h
  exact Option.some.inj h

/-- C1: for every input list, the ranking step of
`process_live_results` produces a list sorted ascending by
`graded_time_seconds`, the first entry has `graded_place` 1, an entry
whose graded time exactly equals the predecessor shares the predecessor
place, and an entry with a different graded time receives its own
1-based position (so a tie block does not compress the numbering of the
entry after it). -/
theorem c1_ranking_sorted_and_places (raw : List RawItem) (adj : FactorTable) :
    (∀ i j (hi : i < (processLiveResults raw adj).length)
        (hj : j < (processLiveResults raw adj).length), i ≤ j →
        ((processLiveResults raw adj).get ⟨i, hi⟩).graded_time_seconds ≤
          ((processLiveResults raw adj).get ⟨j, hj⟩).graded_time_seconds)
    ∧ (∀ i (hi : i < (processLiveResults raw adj).length),
        ((processLiveResults raw adj).get ⟨i, hi⟩).graded_place =
          if hz : i = 0 then 1
          else
            if ((processLiveResults raw adj).get ⟨i, hi⟩).graded_time_seconds =
                ((processLiveResults raw adj).get ⟨i - 1, by omega⟩).graded_time_seconds
            then ((processLiveResults raw adj).get ⟨i - 1, by omega⟩).graded_place
            else i + 1) := by
  constructor
  · intro i j hi hj hij
    have hi2 : i < (sortByGraded (raw.filterMap (parseOne adj))).length := by
      have h := assignPlaces_length (sortByGraded (raw.filterMap (parseOne adj)))
      have hi3 : i < (assignPlaces (sortByGraded (raw.filterMap (parseOne adj)))).length := hi
      omega
    have hj2 : j < (sortByGraded (raw.filterMap (parseOne adj))).length := by
      have h := assignPlaces_length (sortByGraded (raw.filterMap (parseOne adj)))
      have hj3 : j < (assignPlaces (sortByGraded (raw.filterMap (parseOne adj)))).length := hj
      omega
    calc ((processLiveResults raw adj).get ⟨i, hi⟩).graded_time_seconds
        = ((sortByGraded (raw.filterMap (parseOne adj))).get ⟨i, hi2⟩).graded_time_seconds :=
          assignPlaces_get_graded _ i hi hi2
      _ ≤ ((sortByGraded (raw.filterMap (parseOne adj))).get ⟨j, hj2⟩).graded_time_seconds := by
          rcases Nat.lt_or_ge i j with hlt | hge
          · exact List.pairwise_iff_get.mp (sortByGraded_sorted _) ⟨i, hi2⟩ ⟨j, hj2⟩ hlt
          · have hij2 : i = j := le_antisymm hij hge
            subst hij2
            exact le_refl _
      _ = ((processLiveResults raw adj).get ⟨j, hj⟩).graded_time_seconds :=
          (assignPlaces_get_graded _ j hj hj2).symm
  · intro i hi
    have he : (processLiveResults raw adj)[i]?
        = some ((processLiveResults raw adj).get ⟨i, hi⟩) := by
      rw [List.getElem?_eq_getElem hi]
      simp [List.get_eq_getElem]
    by_cases hz : i = 0
    · subst hz
      have hpl := assignPlaces_place (sortByGraded (raw.filterMap (parseOne adj))) 0
        ((processLiveResults raw adj).get ⟨0, hi⟩)
        ((processLiveResults raw adj).get ⟨0, hi⟩)
        he (fun h => absurd h (by omega))
      simpa using hpl
    · have him : i - 1 < (processLiveResults raw adj).length := by omega
      have hp : (processLiveResults raw adj)[i-1]?
          = some ((processLiveResults raw adj).get ⟨i - 1, him⟩) := by
        rw [List.getElem?_eq_getElem him]
        simp [List.get_eq_getElem]
      have hpl := assignPlaces_place (sortByGraded (raw.filterMap (parseOne adj))) i
        ((processLiveResults raw adj).get ⟨i, hi⟩)
        ((processLiveResults raw adj).get ⟨i - 1, him⟩)
        he (fun _ => hp)
      rw [hpl]
      simp [hz]

/-- C5: resolve_slot_policy applies, in priority order: an explicit
recognized override is returned unchanged; a gender-keyed slots mapping
gives split-fixed; distance 140.6 gives split-dynamic on or after
2025-11-14 and combined-fixed before; distance 70.3 gives split-fixed;
anything else gives combined-fixed. -/
theorem c5_resolve_slot_policy_rules (race : Race) :
    (∀ s, race.slot_policy = some s → s ∈ allowedPolicies →
      resolveSlotPolicy race = s)
    ∧ ((∀ s, race.slot_policy = some s → s ∉ allowedPolicies) →
        slotsGenderKeyed race = true → resolveSlotPolicy race = "split-fixed")
    ∧ ((∀ s, race.slot_policy = some s → s ∉ allowedPolicies) →
        slotsGenderKeyed race = false → race.distance = some "140.6" →
        ((dateLeB (pyParseDate "2025-11-14") (pyParseDate (raceDateStr race)) = true →
            resolveSlotPolicy race = "split-dynamic")
         ∧ (dateLeB (pyParseDate "2025-11-14") (pyParseDate (raceDateStr race)) = false →
            resolveSlotPolicy race = "combined-fixed")))
    ∧ ((∀ s, race.slot_policy = some s → s ∉ allowedPolicies) →
        slotsGenderKeyed race = false → race.distance ≠ some "140.6" →
        race.distance = some "70.3" → resolveSlotPolicy race = "split-fixed")
    ∧ ((∀ s, race.slot_policy = some s → s ∉ allowedPolicies) →
        slotsGenderKeyed race = false → race.distance ≠ some "140.6" →
        race.distance ≠ some "70.3" → resolveSlotPolicy race = "combined-fixed") := by
  refine ⟨?_, ?_, ?_, ?_, ?_⟩
  · intro s hs hmem
    simp [resolveSlotPolicy, hs, hmem]
  · intro hnr hk
    cases hsp : race.slot_policy with
    | none => simp [resolveSlotPolicy, hsp, resolveSlotPolicyInferred, hk]
    | some s =>
      have := hnr s hsp
      simp [resolveSlotPolicy, hsp, this, resolveSlotPolicyInferred, hk]
  · intro hnr hk hd
    constructor
    · intro hdate
      cases hsp : race.slot_policy with
      | none => simp [resolveSlotPolicy, hsp, resolveSlotPolicyInferred, hk, hd, hdate]
      | some s =>
        have := hnr s hsp
        simp [resolveSlotPolicy, hsp, this, resolveSlotPolicyInferred, hk, hd, hdate]
    · intro hdate
      cases hsp : race.slot_policy with
      | none => simp [resolveSlotPolicy, hsp, resolveSlotPolicyInferred, hk, hd, hdate]
      | some s =>
        have := hnr s hsp
        simp [resolveSlotPolicy, hsp, this, resolveSlotPolicyInferred, hk, hd, hdate]
  · intro hnr hk hd14 hd7
    cases hsp : race.slot_policy with
    | none => simp [resolveSlotPolicy, hsp, resolveSlotPolicyInferred, hk, hd14, hd7]
    | some s =>
      have := hnr s hsp
      simp [resolveSlotPolicy, hsp, this, resolveSlotPolicyInferred, hk, hd14, hd7]
  · intro hnr hk hd14 hd7
    cases hsp : race.slot_policy with
    | none => simp [resolveSlotPolicy, hsp, resolveSlotPolicyInferred, hk, hd14, hd7]
    | some s =>
      have := hnr s hsp
      simp [resolveSlotPolicy, hsp, this, resolveSlotPolicyInferred, hk, hd14, hd7]

/-!  ## The division filter (claim C9) -/

lemma agMatchL_spec (l : List Char) (out : String) :
    agMatchL l = some out ↔
      ∃ (sex a1 a2 b1 b2 : Char) (hyph : Bool),
        (sex = 'M' ∨ sex = 'F' ∨ sex = 'm' ∨ sex = 'f')
        ∧ a1.isDigit = true ∧ a2.isDigit = true
        ∧ b1.isDigit = true ∧ b2.isDigit = true
        ∧ l = sex :: a1 :: a2 :: ((if hyph then ['-'] else []) ++ [b1, b2])
        ∧ out = ⟨[sex.toUpper, a1, a2, '-', b1, b2]⟩ := by
  constructor
  · intro h
    rcases l with _ | ⟨sex, _ | ⟨a1, _ | ⟨a2, rest⟩⟩⟩
    · exact absurd h (by simp [agMatchL])
    · exact absurd h (by simp [agMatchL])
    · exact absurd h (by simp [agMatchL])
    simp only [agMatchL] at h
    split at h
    case isTrue hcond =>
      simp only [Bool.and_eq_true, Bool.or_eq_true, decide_eq_true_eq] at hcond
      obtain ⟨⟨hsex, h1⟩, h2⟩ := hcond
      split at h
      case h_1 b1 b2 =>
        split at h
        case isTrue hd =>
          simp only [Bool.and_eq_true] at hd
          refine ⟨sex, a1, a2, b1, b2, false, ?_, h1, h2, hd.1, hd.2, by simp, ?_⟩
          · tauto
          · exact (Option.some_injective _ h).symm
        case isFalse => exact absurd h (by simp)
      case h_2 b1 b2 =>
        split at h
        case isTrue hd =>
          simp only [Bool.and_eq_true] at hd
          refine ⟨sex, a1, a2, b1, b2, true, ?_, h1, h2, hd.1, hd.2, by simp, ?_⟩
          · tauto
          · exact (Option.some_injective _ h).symm
        case isFalse => exact absurd h (by simp)
      case h_3 => exact absurd h (by simp)
    case isFalse => exact absurd h (by simp)
  · rintro ⟨sex, a1, a2, b1, b2, hyph, hsex, h1, h2, h3, h4, hl, hout⟩
    subst hl hout
    rcases hyph with _ | _
    · rcases hsex with rfl | rfl | rfl | rfl <;>
        simp [agMatchL, h1, h2, h3, h4]
    · rcases hsex with rfl | rfl | rfl | rfl <;>
        simp [agMatchL, h1, h2, h3, h4]

lemma parseOne_division_rejected (adj : FactorTable) (item : RawItem)
    (h : agMatch (stripPyWs (item.division.getD "")) = none) :
    parseOne adj item = none := by
  unfold parseOne
  dsimp only
  split
  · rfl
  · simp [h]

/-- C9: the division filter accepts exactly the whitespace-stripped
strings of shape sex letter (M/F, case-insensitive), two digits,
optional hyphen, two digits, normalizes them to the canonical
`{M|F}NN-NN` form, and a record with a rejected division is dropped
without erroring the batch. -/
theorem c9_division_filter (raw : String) :
    (∀ out, agMatch (stripPyWs raw) = some out ↔
      ∃ (sex a1 a2 b1 b2 : Char) (hyph : Bool),
        (sex = 'M' ∨ sex = 'F' ∨ sex = 'm' ∨ sex = 'f')
        ∧ a1.isDigit = true ∧ a2.isDigit = true
        ∧ b1.isDigit = true ∧ b2.isDigit = true
        ∧ (stripPyWs raw).toList
            = sex :: a1 :: a2 :: ((if hyph then ['-'] else []) ++ [b1, b2])
        ∧ out = ⟨[sex.toUpper, a1, a2, '-', b1, b2]⟩)
    ∧ (agMatch (stripPyWs "M18-24") = some "M18-24"
       ∧ agMatch (stripPyWs "f4549") = some "F45-49"
       ∧ agMatch (stripPyWs " M18 - 24 ") = some "M18-24"
       ∧ agMatch (stripPyWs "PRO") = none
       ∧ agMatch (stripPyWs "RELAY") = none
       ∧ agMatch (stripPyWs "M18") = none)
    ∧ (∀ (item : RawItem) (rest : List RawItem) (adj : FactorTable),
        agMatch (stripPyWs (item.division.getD "")) = none →
        processLiveResults (item :: rest) adj = processLiveResults rest adj) := by
  refine ⟨?_, by decide, ?_⟩
  · intro out
    exact agMatchL_spec (stripPyWs raw).toList out
  · intro item rest adj h
    unfold processLiveResults
    rw [List.filterMap_cons_none (parseOne_division_rejected adj item h)]

/-- C2: the fast path of get_adjustments_for_race returns the assigned
version and leaves the assignments untouched whenever the assigned id is
still present in the manifest for the race distance, whatever else the
manifest holds. -/
theorem c2_assignment_locked (env : AdjEnv) (assignments : Assignments)
    (race : Race) (vid fp : String) (entry : VersionEntry) (tbl : FactorTable)
    (ha : lookupAssoc assignments (raceKeyAdj race) = some vid)
    (he : (versionsForDistance env.manifest race.distance).find?
      (fun v => v.id = some vid) = some entry)
    (hf : entry.file = some fp)
    (ht : env.files fp = some tbl) :
    getAdjustmentsForRace env assignments race = .ok ((tbl, vid), assignments) := by
  unfold getAdjustmentsForRace
  rw [ha]
  dsimp only
  rw [he]
  dsimp only
  rw [hf]
  dsimp only
  rw [ht]

/-- C2 witness: a manifest update adding a newer version whose
effective_from precedes the race date does not change the resolved
factor table of an already-assigned race. -/
theorem c2_assignment_locked_witness :
    getAdjustmentsForRace c2EnvBefore [("RACEK", "v1")] c2Race
        = .ok ((c2Table, "v1"), [("RACEK", "v1")])
    ∧ getAdjustmentsForRace c2EnvAfter [("RACEK", "v1")] c2Race
        = .ok ((c2Table, "v1"), [("RACEK", "v1")]) := by
  constructor
  · exact c2_assignment_locked c2EnvBefore [("RACEK", "v1")] c2Race "v1" "f1.json"
      { id := some "v1", distance := some "140.6",
        effective_from := some "2025-01-01", file := some "f1.json" }
      c2Table (by decide) (by decide) (by decide) (by decide)
  · exact c2_assignment_locked c2EnvAfter [("RACEK", "v1")] c2Race "v1" "f1.json"
      { id := some "v1", distance := some "140.6",
        effective_from := some "2025-01-01", file := some "f1.json" }
      c2Table (by decide) (by decide) (by decide) (by decide)

/-!  ## Lemmas about the slot-allocation passes (claim C4) -/

lemma markPool_fields (l : List SlotAthlete) : ∀ (r i : Nat),
    ((markPool r l)[i]?.map (fun a => (a.ag_place, a.age_group, a.ag_winner)))
      = (l[i]?.map (fun a => (a.ag_place, a.age_group, a.ag_winner))) := by
  induction l with
  | nil => intro r i; simp [markPool]
  | cons a rest ih =>
    intro r i
    by_cases hr : r = 0
    · simp [markPool, hr]
    · by_cases hw : a.ag_winner
      · cases i with
        | zero => simp [markPool, hr, hw]
        | succ j => simpa [markPool, hr, hw] using ih r j
      · cases i with
        | zero => simp [markPool, hr, hw]
        | succ j => simpa [markPool, hr, hw] using ih (r - 1) j

lemma markPool_pool (l : List SlotAthlete) : ∀ (r i : Nat),
    (∀ a ∈ l, a.pool_qualifier = false) →
    ((markPool r l)[i]?.map (·.pool_qualifier))
      = (l[i]?.map (fun a => !a.ag_winner
          && decide (((l.take i).filter (fun b => !b.ag_winner)).length < r))) := by
  induction l with
  | nil => intro r i _; simp [markPool]
  | cons a rest ih =>
    intro r i hall
    by_cases hr : r = 0
    · subst hr
      simp only [markPool, if_pos rfl]
      cases h : (a :: rest)[i]? with
      | none => simp [h]
      | some x =>
        have hx : x ∈ a :: rest := List.getElem?_mem h
        simp [h, hall x hx]
    · by_cases hw : a.ag_winner
      · cases i with
        | zero =>
          simp [markPool, hr, hw, hall a (List.mem_cons_self a rest)]
        | succ j =>
          have := ih r j (fun b hb => hall b (List.mem_cons_of_mem a hb))
          simpa [markPool, hr, hw] using this
      · cases i with
        | zero =>
          simp [markPool, hr, hw, Nat.pos_of_ne_zero hr]
        | succ j =>
          have := ih (r - 1) j (fun b hb => hall b (List.mem_cons_of_mem a hb))
          simp only [markPool, if_neg hr, if_neg hw]
          simp only [List.getElem?_cons_succ, List.take_succ_cons, List.filter_cons]
          simp only [hw, Bool.not_false, if_pos]
          rw [this]
          cases hj : rest[j]? with
          | none => simp [hj]
          | some y =>
            show some (!y.ag_winner && decide
                ((List.filter (fun b => !b.ag_winner) (List.take j rest)).length < r - 1))
              = some (!y.ag_winner && decide
                ((a :: List.filter (fun b => !b.ag_winner) (List.take j rest)).length < r))
            have harith : ((a :: List.filter (fun b => !b.ag_winner) (List.take j rest)).length < r)
                ↔ ((List.filter (fun b => !b.ag_winner) (List.take j rest)).length < r - 1) := by
              simp only [List.length_cons]
              omega
            rw [decide_eq_decide.mpr harith]

lemma markPool_zero (l : List SlotAthlete) : markPool 0 l = l := by
  cases l <;> simp [markPool]

lemma markWinners_eq_map (l : List SlotAthlete) :
    markWinners l = l.map winnerMark := by
  simp [markWinners, winnerMark]

lemma winnerMark_ag_winner (a : SlotAthlete) :
    (winnerMark a).ag_winner = decide (a.ag_place = some 1) := by
  by_cases h : a.ag_place = some 1 <;> simp [winnerMark, h]

lemma winnerMark_pool (a : SlotAthlete) :
    (winnerMark a).pool_qualifier = false := by
  by_cases h : a.ag_place = some 1 <;> simp [winnerMark, h]

lemma winnerMark_fields (a : SlotAthlete) :
    (winnerMark a).ag_place = a.ag_place ∧ (winnerMark a).age_group = a.age_group := by
  by_cases h : a.ag_place = some 1 <;> simp [winnerMark, h]

lemma markWinners_pool_false (l : List SlotAthlete) :
    ∀ b ∈ markWinners l, b.pool_qualifier = false := by
  intro b hb
  rw [markWinners_eq_map] at hb
  obtain ⟨a, _, rfl⟩ := List.mem_map.mp hb
  exact winnerMark_pool a

lemma markWinners_filter_count (l : List SlotAthlete) (i : Nat) :
    (((markWinners l).take i).filter (fun b => !b.ag_winner)).length
      = ((l.take i).filter (fun a => !decide (a.ag_place = some 1))).length := by
  rw [markWinners_eq_map, ← List.map_take, List.filter_map, List.length_map]
  congr 1
  apply List.filter_congr
  intro a _
  simp [Function.comp, winnerMark_ag_winner]

lemma option_map_proj {α β γ : Type} (f : α → β) (g : β → γ) (o : Option α) :
    (o.map f).map g = o.map (fun a => g (f a)) := by
  cases o <;> rfl

/-- C4 (amended): when the determined total slot count is positive and
the list nonempty, every ag_place = 1 entry is flagged as age-group
winner and the pool qualifiers are exactly the first
max(0, total - distinct winning age groups) non-winner entries in list
order; when the determined total is zero or negative (or the list is
empty), every entry ends with both flags false. -/
theorem c4_annotate_slot_allocation (results : List SlotAthlete) (race : Race)
    (selectedGender : String) (dynOracle : Option DynAlloc) (t : Int)
    (hdet : annotateTotal race selectedGender dynOracle = some t) :
    (0 < t → results ≠ [] →
      ∀ i,
        ((annotateSlotAllocation results race selectedGender dynOracle)[i]?.map (·.ag_winner))
          = (results[i]?.map (fun a => decide (a.ag_place = some 1)))
        ∧ ((annotateSlotAllocation results race selectedGender dynOracle)[i]?.map (·.pool_qualifier))
          = (results[i]?.map (fun a => !decide (a.ag_place = some 1)
              && decide (((results.take i).filter
                    (fun b => !decide (b.ag_place = some 1))).length
                  < (max 0 (t - (winnersByAgCount results : Int))).toNat)))
        ∧ ((annotateSlotAllocation results race selectedGender dynOracle)[i]?.map
              (fun a => (a.ag_place, a.age_group)))
          = (results[i]?.map (fun a => (a.ag_place, a.age_group))))
    ∧ ((t ≤ 0 ∨ results = []) →
        annotateSlotAllocation results race selectedGender dynOracle
          = results.map (fun a => { a with ag_winner := false, pool_qualifier := false })) := by
  constructor
  · intro ht hne i
    have hcond : ¬ (t ≤ 0 ∨ results = []) := by
      rintro (h | h)
      · omega
      · exact hne h
    have hout : annotateSlotAllocation results race selectedGender dynOracle
        = markPool ((t - (winnersByAgCount results : Int)).toNat) (markWinners results) := by
      unfold annotateSlotAllocation
      rw [hdet]
      dsimp only
      rw [if_neg hcond]
      by_cases hz : ((t - (winnersByAgCount results : Int)).toNat) = 0
      · rw [if_pos hz, hz, markPool_zero]
      · rw [if_neg hz]
    have hmax : (max 0 (t - (winnersByAgCount results : Int))).toNat
        = (t - (winnersByAgCount results : Int)).toNat := by omega
    rw [hout, hmax]
    refine ⟨?_, ?_, ?_⟩
    · have h1 := markPool_fields (markWinners results)
        ((t - (winnersByAgCount results : Int)).toNat) i
      have h2 := congrArg (Option.map (fun p => p.2.2)) h1
      rw [option_map_proj, option_map_proj] at h2
      simp only at h2
      rw [h2, markWinners_eq_map, List.getElem?_map, option_map_proj]
      apply congrArg (fun f => Option.map f results[i]?) ?_
      funext a
      exact winnerMark_ag_winner a
    · have h1 := markPool_pool (markWinners results)
        ((t - (winnersByAgCount results : Int)).toNat) i
        (markWinners_pool_false results)
      rw [h1, markWinners_filter_count, markWinners_eq_map, List.getElem?_map,
        option_map_proj]
      apply congrArg (fun f => Option.map f results[i]?) ?_
      funext a
      rw [winnerMark_ag_winner]
    · have h1 := markPool_fields (markWinners results)
        ((t - (winnersByAgCount results : Int)).toNat) i
      have h2 := congrArg (Option.map (fun p => (p.1, p.2.1))) h1
      rw [option_map_proj, option_map_proj] at h2
      simp only at h2
      rw [h2, markWinners_eq_map, List.getElem?_map, option_map_proj]
      apply congrArg (fun f => Option.map f results[i]?) ?_
      funext a
      rw [(winnerMark_fields a).1, (winnerMark_fields a).2]
  · intro hcond
    unfold annotateSlotAllocation
    rw [hdet]
    dsimp only
    rw [if_pos hcond]

/-- C4 counterexample: a combined-fixed race with a determined total of
0 slots leaves an ag_place = 1 entry unmarked as winner. -/
theorem c4_total_zero_counterexample :
    annotateTotal cex4Race "men" none = some 0
    ∧ (annotateSlotAllocation [{ ag_place := some 1, age_group := some "M18-24" }]
        cex4Race "men" none).map (·.ag_winner) = [false] := by
  exact ⟨by decide, by decide⟩

/-- C4 witness: 3 age-group winners, total 5, so exactly the next 2
non-winners become pool qualifiers. -/
theorem c4_annotate_slot_allocation_witness :
    ((annotateSlotAllocation c4Results c4Race "men" none)[0]?.map (·.ag_winner)) = some true
    ∧ ((annotateSlotAllocation c4Results c4Race "men" none)[3]?.map (·.pool_qualifier)) = some true
    ∧ ((annotateSlotAllocation c4Results c4Race "men" none)[5]?.map (·.pool_qualifier)) = some false := by
  have h := c4_annotate_slot_allocation c4Results c4Race "men" none 5 (by decide)
  have hpos := h.1 (by decide) (by decide)
  refine ⟨?_, ?_, ?_⟩
  · rw [(hpos 0).1]; decide
  · rw [(hpos 3).2.1]; decide
  · rw [(hpos 5).2.1]; decide

lemma normGender_length (g : Option String) :
    (normGender g).length = 3 ∨ (normGender g).length = 5 := by
  unfold normGender
  split <;> decide

lemma cacheDirPre_length_diff (d : Option String) (g1 g2 : Option String) :
    (cacheDirPre d g1).length = (cacheDirPre d g2).length
    ∨ (cacheDirPre d g1).length = (cacheDirPre d g2).length + 2
    ∨ (cacheDirPre d g1).length + 2 = (cacheDirPre d g2).length := by
  unfold cacheDirPre
  by_cases hd : d = some "70.3"
  · simp only [if_pos hd, String.length_append]
    rcases normGender_length g1 with h1 | h1 <;> rcases normGender_length g2 with h2 | h2 <;>
      rw [h1, h2] <;> omega
  · rw [if_neg hd, if_neg hd]
    exact Or.inl rfl

lemma cacheFilePath_stage_ne (race : Race) (g1 g2 : Option String) :
    getCacheFilePath race "in_progress" g1 ≠ getCacheFilePath race "final" g2 := by
  intro h
  have hlen := congrArg String.length h
  simp only [getCacheFilePath, getCacheDir, String.length_append] at hlen
  have h1 : ("in_progress" : String).length = 11 := rfl
  have h2 : ("final" : String).length = 5 := rfl
  rw [h1, h2] at hlen
  rcases cacheDirPre_length_diff race.distance g1 g2 with h3 | h3 | h3 <;> omega

lemma isFresh_congr (st1 st2 : Store) (now : Int) (p : String) (fr : Int)
    (h : st1 p = st2 p) : isFresh st1 now p fr = isFresh st2 now p fr := by
  simp [isFresh, h]

lemma readJsonIfExists_congr (st1 st2 : Store) (p : String)
    (h : st1 p = st2 p) : readJsonIfExists st1 p = readJsonIfExists st2 p := by
  simp [readJsonIfExists, h]

lemma preFinalStep_result_congr (cfg : CacheCfg) (env : FetchEnv) (race : Race)
    (eg : Option String) (adj : FactorTable) (st1 st2 : Store)
    (h : st1 (getCacheFilePath race "in_progress" eg)
      = st2 (getCacheFilePath race "in_progress" eg)) :
    (preFinalStep cfg env race eg adj st1).result
      = (preFinalStep cfg env race eg adj st2).result
    ∧ (preFinalStep cfg env race eg adj st1).fetched
      = (preFinalStep cfg env race eg adj st2).fetched := by
  unfold preFinalStep
  dsimp only
  rw [isFresh_congr st1 st2 cfg.now _ cfg.freshness h,
    readJsonIfExists_congr st1 st2 _ h]
  cases hfr : (if isFresh st2 cfg.now (getCacheFilePath race "in_progress" eg) cfg.freshness
      then readJsonIfExists st2 (getCacheFilePath race "in_progress" eg) else none) with
  | some d => exact ⟨rfl, rfl⟩
  | none =>
    cases getProcessedResults race eg adj env with
    | error e => exact ⟨rfl, rfl⟩
    | ok d => exact ⟨rfl, rfl⟩

lemma preFinalStep_store_other (cfg : CacheCfg) (env : FetchEnv) (race : Race)
    (eg : Option String) (adj : FactorTable) (st : Store) (p : String)
    (hp : p ≠ getCacheFilePath race "in_progress" eg) :
    (preFinalStep cfg env race eg adj st).store p = st p := by
  unfold preFinalStep
  dsimp only
  cases hfr : (if isFresh st cfg.now (getCacheFilePath race "in_progress" eg) cfg.freshness
      then readJsonIfExists st (getCacheFilePath race "in_progress" eg) else none) with
  | some d => rfl
  | none =>
    cases getProcessedResults race eg adj env with
    | error e => rfl
    | ok d => simp [writeJson, hp]

lemma finalStep_store_preserve (cfg : CacheCfg) (env : FetchEnv) (race : Race)
    (eg : Option String) (adj : FactorTable) (st : Store) (p : String)
    (f : CacheFile) (hf : st p = some f) :
    (finalStep cfg env race eg adj st).store p = some f := by
  unfold finalStep
  dsimp only
  cases hr : readJsonIfExists st (getCacheFilePath race "final" eg) with
  | some d => exact hf
  | none =>
    cases getProcessedResults race eg adj env with
    | error e => exact hf
    | ok d =>
      show writeJson st cfg.now (getCacheFilePath race "final" eg) d p = some f
      by_cases hpe : p = getCacheFilePath race "final" eg
      · subst hpe
        rw [readJsonIfExists, hf] at hr
        exact absurd hr (by simp)
      · simp [writeJson, hpe, hf]

/-- C3: for a race with positive earliestStartTime, once the final
window is reached, an existing final-tier entry is returned verbatim
without invoking the grader and without touching the store; when no
final entry exists, exactly one fetch runs, a success is persisted to
the final tier and an error leaves the store untouched; and an existing
final entry is never overwritten by any later call for this race. -/
theorem c3_final_tier_durability (cfg : CacheCfg) (env : FetchEnv) (race : Race)
    (gender : Option String) (adj : FactorTable) (st : Store)
    (hready : finalReady cfg race = true) :
    (∀ f, st (getCacheFilePath race "final" (effectiveGender race gender)) = some f →
      getProcessedResultsCached cfg env race gender adj st
        = ⟨.ok f.data, st, false⟩)
    ∧ (st (getCacheFilePath race "final" (effectiveGender race gender)) = none →
        (getProcessedResultsCached cfg env race gender adj st).fetched = true
        ∧ (∀ e, getProcessedResults race (effectiveGender race gender) adj env = .error e →
            getProcessedResultsCached cfg env race gender adj st = ⟨.error e, st, true⟩)
        ∧ (∀ d, getProcessedResults race (effectiveGender race gender) adj env = .ok d →
            getProcessedResultsCached cfg env race gender adj st
              = ⟨.ok d, writeJson st cfg.now
                  (getCacheFilePath race "final" (effectiveGender race gender)) d, true⟩))
    ∧ (∀ (cfg2 : CacheCfg) (env2 : FetchEnv) (gender2 : Option String)
        (adj2 : FactorTable) (f : CacheFile),
        st (getCacheFilePath race "final" (effectiveGender race gender)) = some f →
        (getProcessedResultsCached cfg2 env2 race gender2 adj2 st).store
          (getCacheFilePath race "final" (effectiveGender race gender)) = some f) := by
  refine ⟨?_, ?_, ?_⟩
  · intro f hf
    unfold getProcessedResultsCached
    rw [if_pos hready]
    unfold finalStep
    dsimp only
    rw [show readJsonIfExists st (getCacheFilePath race "final" (effectiveGender race gender))
        = some f.data from by simp [readJsonIfExists, hf]]
  · intro hnone
    have hstep : getProcessedResultsCached cfg env race gender adj st
        = finalStep cfg env race (effectiveGender race gender) adj st := by
      unfold getProcessedResultsCached
      rw [if_pos hready]
    have hread : readJsonIfExists st
        (getCacheFilePath race "final" (effectiveGender race gender)) = none := by
      simp [readJsonIfExists, hnone]
    refine ⟨?_, ?_, ?_⟩
    · rw [hstep]
      unfold finalStep
      dsimp only
      rw [hread]
      cases getProcessedResults race (effectiveGender race gender) adj env with
      | error e => rfl
      | ok d => rfl
    · intro e he
      rw [hstep]
      unfold finalStep
      dsimp only
      rw [hread, he]
    · intro d hd
      rw [hstep]
      unfold finalStep
      dsimp only
      rw [hread, hd]
  · intro cfg2 env2 gender2 adj2 f hf
    unfold getProcessedResultsCached
    by_cases hr2 : finalReady cfg2 race = true
    · rw [if_pos hr2]
      exact finalStep_store_preserve cfg2 env2 race (effectiveGender race gender2)
        adj2 st _ f hf
    · rw [if_neg hr2]
      rw [preFinalStep_store_other cfg2 env2 race (effectiveGender race gender2) adj2 st _
        (fun hcontra => cacheFilePath_stage_ne race (effectiveGender race gender2)
          (effectiveGender race gender) hcontra.symm)]
      exact hf

lemma finalReady_false_of_nonpos (cfg : CacheCfg) (race : Race)
    (h : earliestStart race ≤ 0) : finalReady cfg race = false := by
  unfold finalReady
  have h2 : ¬ (0 < earliestStart race) := by omega
  simp [h2]

/-- C10: for a race whose earliestStartTime is missing, zero, or
negative, get_processed_results_cached behaves exactly as the
in-progress path, never writes the final-tier cell, and its result and
fetch behavior are independent of the final-tier cell contents. -/
theorem c10_nonpositive_start_skips_final_tier (cfg : CacheCfg) (env : FetchEnv)
    (race : Race) (gender : Option String) (adj : FactorTable) (st : Store)
    (h : earliestStart race ≤ 0) :
    (getProcessedResultsCached cfg env race gender adj st
      = preFinalStep cfg env race (effectiveGender race gender) adj st)
    ∧ ((getProcessedResultsCached cfg env race gender adj st).store
        (getCacheFilePath race "final" (effectiveGender race gender))
      = st (getCacheFilePath race "final" (effectiveGender race gender)))
    ∧ (∀ v, (getProcessedResultsCached cfg env race gender adj
          (setStore st (getCacheFilePath race "final" (effectiveGender race gender)) v)).result
        = (getProcessedResultsCached cfg env race gender adj st).result
      ∧ (getProcessedResultsCached cfg env race gender adj
          (setStore st (getCacheFilePath race "final" (effectiveGender race gender)) v)).fetched
        = (getProcessedResultsCached cfg env race gender adj st).fetched) := by
  have hfr := finalReady_false_of_nonpos cfg race h
  have hstep : ∀ st2 : Store, getProcessedResultsCached cfg env race gender adj st2
      = preFinalStep cfg env race (effectiveGender race gender) adj st2 := by
    intro st2
    unfold getProcessedResultsCached
    rw [if_neg (by simp [hfr])]
  refine ⟨hstep st, ?_, ?_⟩
  · rw [hstep st]
    exact preFinalStep_store_other cfg env race (effectiveGender race gender) adj st _
      (fun hc => cacheFilePath_stage_ne race (effectiveGender race gender)
        (effectiveGender race gender) hc.symm)
  · intro v
    rw [hstep st, hstep (setStore st _ v)]
    exact preFinalStep_result_congr cfg env race (effectiveGender race gender) adj _ st
      (by
        have hne : getCacheFilePath race "in_progress" (effectiveGender race gender)
            ≠ getCacheFilePath race "final" (effectiveGender race gender) :=
          cacheFilePath_stage_ne race (effectiveGender race gender) (effectiveGender race gender)
        simp [setStore, hne])

/-- C3 witness: concrete final-window race served verbatim from an
existing final entry, a grader error written nowhere, and the final
entry preserved. -/
theorem c3_final_tier_durability_witness :
    getProcessedResultsCached c3Cfg (fun _ => FetchRes.ok []) c3Race none [] c3Store
      = ⟨.ok [], c3Store, false⟩
    ∧ getProcessedResultsCached c3Cfg (fun _ => FetchRes.err "boom") c3Race none []
        (fun _ => none)
      = ⟨.error "boom", (fun _ => none), true⟩
    ∧ (getProcessedResultsCached c3Cfg (fun _ => FetchRes.ok []) c3Race none [] c3Store).store
        (getCacheFilePath c3Race "final" (effectiveGender c3Race none)) = some c3Entry := by
  refine ⟨?_, ?_, ?_⟩
  · exact (c3_final_tier_durability c3Cfg (fun _ => FetchRes.ok []) c3Race none [] c3Store
      (by decide)).1 c3Entry (by rfl)
  · exact ((c3_final_tier_durability c3Cfg (fun _ => FetchRes.err "boom") c3Race none []
      (fun _ => none) (by decide)).2.1 rfl).2.1 "boom" (by rfl)
  · rw [((c3_final_tier_durability c3Cfg (fun _ => FetchRes.ok []) c3Race none [] c3Store
      (by decide)).1 c3Entry (by rfl) : _)]
    rfl

/-- C10 witness: a race with no earliestStartTime never creates a final
entry, and planting one does not change the served result. -/
theorem c10_nonpositive_start_skips_final_tier_witness :
    (getProcessedResultsCached c3Cfg (fun _ => FetchRes.err "down") c10Race none []
        (fun _ => none)).store
      (getCacheFilePath c10Race "final" (effectiveGender c10Race none)) = none
    ∧ (getProcessedResultsCached c3Cfg (fun _ => FetchRes.err "down") c10Race none []
        (setStore (fun _ => none)
          (getCacheFilePath c10Race "final" (effectiveGender c10Race none))
          (some c3Entry))).result
      = (getProcessedResultsCached c3Cfg (fun _ => FetchRes.err "down") c10Race none []
        (fun _ => none)).result := by
  constructor
  · exact (c10_nonpositive_start_skips_final_tier c3Cfg (fun _ => FetchRes.err "down")
      c10Race none [] (fun _ => none) (by decide)).2.1
  · exact ((c10_nonpositive_start_skips_final_tier c3Cfg (fun _ => FetchRes.err "down")
      c10Race none [] (fun _ => none) (by decide)).2.2 (some c3Entry)).1

/-- C1 witness: graded seconds [100, 100, 100, 105] receive places
[1, 1, 1, 4]; the fourth place follows from the ranking theorem. -/
theorem c1_ranking_sorted_and_places_witness :
    (processLiveResults c1Raw []).map (·.graded_place) = [1, 1, 1, 4]
    ∧ ((processLiveResults c1Raw []).get ⟨3, by decide⟩).graded_place = 4 := by
  refine ⟨by decide, ?_⟩
  have h := (c1_ranking_sorted_and_places c1Raw []).2 3 (by decide)
  rw [h]
  decide

/-- C5 witness: a 140.6 race dated 2025-11-13 resolves to
combined-fixed, dated 2025-11-14 to split-dynamic, a 70.3 race to
split-fixed, and an explicit override always wins. -/
theorem c5_resolve_slot_policy_rules_witness :
    resolveSlotPolicy c5r1113 = "combined-fixed"
    ∧ resolveSlotPolicy c5r1114 = "split-dynamic"
    ∧ resolveSlotPolicy c5r703 = "split-fixed"
    ∧ resolveSlotPolicy c5rOverride = "combined-fixed" := by
  refine ⟨?_, ?_, ?_, ?_⟩
  · exact ((c5_resolve_slot_policy_rules c5r1113).2.2.1
      (fun s hs => nomatch hs) (by decide) rfl).2 (by decide)
  · exact ((c5_resolve_slot_policy_rules c5r1114).2.2.1
      (fun s hs => nomatch hs) (by decide) rfl).1 (by decide)
  · exact (c5_resolve_slot_policy_rules c5r703).2.2.2.1
      (fun s hs => nomatch hs) (by decide) (by decide) rfl
  · exact (c5_resolve_slot_policy_rules c5rOverride).1 "combined-fixed" rfl (by decide)

/-- C9 witness: the acceptance characterization applied to the input
"f4549", which normalizes to F45-49. -/
theorem c9_division_filter_witness :
    agMatch (stripPyWs "f4549") = some "F45-49" := by
  have h := (c9_division_filter "f4549").1 "F45-49"
  exact h.mpr ⟨'f', '4', '5', '4', '9', false, by decide, by decide, by decide,
    by decide, by decide, by decide, by decide⟩

/-- C6: a split-dynamic race meeting every prerequisite of
compute_dynamic_slots makes the function raise AttributeError inside
the persistence step (cache_utils binds no write_json_atomic), so no
computed allocation is ever persisted, contradicting the claimed
compute-once-and-persist behavior. -/
theorem c6_dynamic_persistence_crash :
    resolveSlotPolicy c6Race = "split-dynamic"
    ∧ earliestStart c6Race + 3600 ≤ 10000
    ∧ slotsAsIntOrZero c6Race = 20
    ∧ computeDynamicSlots (fun _ => none) 10000 c6Race
        = .error PyErr.attributeError := by
  exact ⟨by decide, by decide, by decide, by decide⟩

/-- C7: cache_utils binds no write_json_atomic (so the dynamic-slots
document write raises), result-cache writes via write_json open the
destination path directly rather than going through a temp file and
rename, and only the adjustments-assignment writer follows the
temp-then-atomic-replace discipline. -/
theorem c7_write_discipline :
    ("write_json_atomic" ∈ cacheUtilsNames → False)
    ∧ usesTempThenReplace "src/data/140.6/final/IMWC25.json"
        (writeJsonOps "src/data/140.6/final/IMWC25.json") = false
    ∧ usesTempThenReplace "src/data/ag_assignments.json"
        (saveJsonAtomicOps "src/data/ag_assignments.json") = true := by
  exact ⟨by decide, by decide, by decide⟩

/-- C8 (amended): the batch-level "no live data found" error is decided
on the raw fetched list before parsing and filtering; when fetched
records exist, the processed (possibly empty) list is returned, and an
individual record that fails parsing or filtering is skipped without
erroring the batch. -/
theorem c8_no_live_data_boundary (race : Race) (gender : Option String)
    (adj : FactorTable) (env : FetchEnv) :
    (collectedRaw race gender env = .ok [] →
      getProcessedResults race gender adj env
        = .error "No live data found for the selected race.")
    ∧ (∀ raws, collectedRaw race gender env = .ok raws → raws ≠ [] →
        getProcessedResults race gender adj env = .ok (processLiveResults raws adj))
    ∧ (∀ (item : RawItem) (rest : List RawItem), parseOne adj item = none →
        processLiveResults (item :: rest) adj = processLiveResults rest adj) := by
  refine ⟨?_, ?_, ?_⟩
  · intro h
    unfold getProcessedResults
    rw [h]
    rfl
  · intro raws h hne
    unfold getProcessedResults
    rw [h]
    simp [hne]
  · intro item rest h
    unfold processLiveResults
    rw [List.filterMap_cons_none h]

/-- C8 counterexample: a fetch returning one record whose division is
PRO (so nothing survives filtering) yields the empty result list, not
the batch-level error the claim requires. -/
theorem c8_all_filtered_returns_empty_list :
    getProcessedResults cex8Race (some "men") [] cex8Env = .ok []
    ∧ (∀ msg, getProcessedResults cex8Race (some "men") [] cex8Env ≠ .error msg) := by
  have h : getProcessedResults cex8Race (some "men") [] cex8Env = .ok [] := by decide
  refine ⟨h, ?_⟩
  intro msg hcontra
  rw [h] at hcontra
  cases hcontra

/-- C8 witness: an empty fetched list produces the batch-level error. -/
theorem c8_no_live_data_boundary_witness :
    getProcessedResults cex8Race (some "men") [] (fun _ => FetchRes.ok [])
      = .error "No live data found for the selected race." :=
  (c8_no_live_data_boundary cex8Race (some "men") [] (fun _ => FetchRes.ok [])).1
    (by decide)
